import Mathlib

/-!
# Verification of the V25 data-cleaner pipeline

Shallow embedding of the per-file cleaning logic of the repository
(`src/main.rs`, with `src/lib.rs` providing the same helper functions and
`src/bin.rs` an inlined duplicate of the loop body).

A file is modelled as a list of lines, each line a list of characters
(`BufRead::lines` strips the newline terminators, so the on-disk artifact
is fully described by the line list).  Rust `usize` arithmetic that can
underflow (`min_len - 2`, `content.len() - 1`) is modelled by wrapping
subtraction modulo 2^64, and every indexing / slicing operation that can
panic is modelled by `Option` (`none` = panic).
-/

/-- A text line, as read by `lines_from_file` (newline stripped). -/
abbrev Line := List Char

/-- `usize::MAX + 1`: the modulus of Rust's 64-bit `usize` arithmetic. -/
def USIZE : Nat := 18446744073709551616

/-- Wrapping `usize` subtraction `a - b` (release-mode Rust semantics),
for `b ≤ USIZE`. -/
def usub (a b : Nat) : Nat := (a + (USIZE - b)) % USIZE


/-- The Unicode code points with the `White_Space` property: the set
trimmed by Rust's `str::trim` (via `char::is_whitespace`). -/
def whitespaceCodes : List Nat :=
  [0x09, 0x0A, 0x0B, 0x0C, 0x0D, 0x20, 0x85, 0xA0, 0x1680,
   0x2000, 0x2001, 0x2002, 0x2003, 0x2004, 0x2005, 0x2006, 0x2007,
   0x2008, 0x2009, 0x200A, 0x2028, 0x2029, 0x202F, 0x205F, 0x3000]

/-- Rust `char::is_whitespace`. -/
def rustIsWhitespace (c : Char) : Bool := whitespaceCodes.contains c.toNat

/-- Rust `str::trim`: remove leading and trailing whitespace. -/
def rustTrim (s : Line) : Line :=
  ((s.dropWhile rustIsWhitespace).reverse.dropWhile rustIsWhitespace).reverse

/-- Rust `str::split` with a one-character pattern (the code always splits
on `"\t"`).  Splitting the empty string yields one empty field, matching
Rust (`"".split("\t")` yields `[""]`). -/
def splitOnChar (d : Char) : Line → List Line
  | [] => [[]]
  | c :: cs =>
    match splitOnChar d cs with
    | [] => [[]]
    | f :: fs => if c = d then [] :: f :: fs else (c :: f) :: fs


/-- `n_data_fields` (src/lib.rs:66): trim the string, split on the
delimiter, return the number of fields. -/
def n_data_fields (s : Line) (d : Char) : Nat := (splitOnChar d (rustTrim s)).length

/-- `n_chars_last_field` (src/lib.rs:72): number of characters in the last
field of the trimmed, delimiter-split string. -/
def n_chars_last_field (s : Line) (d : Char) : Option Nat :=
  (splitOnChar d (rustTrim s)).getLast?.map List.length


/-- Check #2, first half (src/main.rs:202): pop lines from the tail while
the last line is the empty string. -/
def trimTrailing (ls : List Line) : List Line :=
  ((ls.reverse).dropWhile (fun l => l.isEmpty)).reverse


/-- Outcome of the line-integrity pipeline: `delete`, or keep the (possibly
trimmed) content together with the `write` flag that tells the caller
whether any line was removed. -/
inductive Outcome
  | delete
  | keep (write : Bool) (content : List Line)
deriving DecidableEq

/-- Check #5 (src/main.rs:290): after the removals of #4.1/#4.2 the content
could be too short; otherwise the checks are done. -/
def check5 (min_len : Nat) (cnt : List Line) (w : Bool) : Option Outcome :=
  if cnt.length < min_len then some Outcome.delete else some (Outcome.keep w cnt)

/-- Check #4.2 (src/main.rs:272): only if more than `min_len` lines remain,
compare the character count of the last field of the last line against the
penultimate line; if strictly smaller, pop the last line. -/
def check42 (min_len : Nat) (cnt : List Line) (w : Bool) : Option Outcome :=
  if min_len < cnt.length then
    match cnt[usub cnt.length 1]?, cnt[usub cnt.length 2]? with
    | some lastL, some prevL =>
      match n_chars_last_field lastL '\t', n_chars_last_field prevL '\t' with
      | some haveN, some wantN =>
        if haveN < wantN then check5 min_len cnt.dropLast true
        else check5 min_len cnt w
      | _, _ => none
    | _, _ => none
  else check5 min_len cnt w

/-- The line-integrity pipeline (src/main.rs:200-300): checks #2-#5 on a
file's lines, given the resolved minimum line count.  `none` models a
panic (out-of-bounds index / failed unwrap). -/
def pipeline (min_len : Nat) (content0 : List Line) : Option Outcome :=
  -- check #2: drop trailing empty lines, then enforce the minimum length
  let content1 := trimTrailing content0
  let write1 : Bool := decide (content1 ≠ content0)
  if content1.length < min_len then some Outcome.delete
  else
    -- check #3: field counts of header line and first data line must match
    match content1[usub min_len 2]?, content1[usub min_len 1]? with
    | some header, some data1 =>
      if n_data_fields data1 '\t' ≠ n_data_fields header '\t' then some Outcome.delete
      else
        -- check #4.1: last line's field count must match the header's
        match content1[usub content1.length 1]? with
        | some last1 =>
          if n_data_fields last1 '\t' ≠ n_data_fields header '\t' then
            check42 min_len content1.dropLast true
          else
            check42 min_len content1 write1
        | none => none
    | _, _ => none

/-- Rust slice `l[a..b]` (caller must have established `a ≤ b ≤ l.length`). -/
def rslice (l : List Line) (a b : Nat) : List Line := (l.drop a).take (b - a)

/-- `write_osc` (src/lib.rs:43): write `content[0..nl_head]` verbatim, then
each line of `content[nl_head..content.len()-1]` as `"\t{pfx}{line}"`.
`none` models the panic when a slice bound is out of range. -/
def write_osc (content : List Line) (nl_head : Nat) (pfx : Line) : Option (List Line) :=
  if nl_head ≤ content.length ∧ nl_head ≤ usub content.length 1 ∧
      usub content.length 1 ≤ content.length then
    some (rslice content 0 nl_head ++
      (rslice content nl_head (usub content.length 1)).map
        (fun l => '\t' :: (pfx ++ l)))
  else none

/-- ASCII digit, the literal meaning of `\d` in the datetime regex.  (With
Rust's default Unicode mode `\d` also matches non-ASCII decimal digits;
no claim depends on those, and every concrete input used here is ASCII.) -/
def reDigit (ch : Char) : Bool := '0' ≤ ch && ch ≤ '9'

/-- The fixed-length pattern `\d{2}\.\d{2}\.\d{2} \d{2}:\d{2}:\d{2}\.\d{2}`
(src/main.rs:307) as a list of per-character predicates. -/
def dtPattern : List (Char → Bool) :=
  [reDigit, reDigit, (· = '.'), reDigit, reDigit, (· = '.'), reDigit, reDigit,
   (· = ' '), reDigit, reDigit, (· = ':'), reDigit, reDigit, (· = ':'),
   reDigit, reDigit, (· = '.'), reDigit, reDigit]

/-- Does the pattern match starting at the head of `s`? -/
def matchesHere : List (Char → Bool) → Line → Bool
  | [], _ => true
  | _ :: _, [] => false
  | p :: ps, ch :: cs => p ch && matchesHere ps cs

/-- `RE_DT.is_match`: the datetime pattern matches somewhere in the line. -/
def reDtIsMatch (s : Line) : Bool :=
  (List.range (s.length + 1)).any (fun i => matchesHere dtPattern (s.drop i))

/-- Substring containment, Rust `str::contains` with a literal pattern. -/
def listContains (hay needle : Line) : Bool :=
  (List.range (hay.length + 1)).any (fun i => needle.isPrefixOf (hay.drop i))

/-- The marker token `"DateTime"`. -/
def markerChars : Line := ['D', 'a', 't', 'e', 'T', 'i', 'm', 'e']

/-- The designated special extension `"OSC"`. -/
def oscChars : Line := ['O', 'S', 'C']

/-- Result of the OSC special-case step: skip (no write) or a full rewrite
of the file with the given lines. -/
inductive OscResult
  | skip
  | wrote (lines : List Line)
deriving DecidableEq

/-- The OSC branch (src/main.rs:311-316): take the first line as the
datetime; if it matches the pattern and line 4 does not already contain
the marker, set line 4 to `"\tDateTime" + line4` and call `write_osc`
with `nl_head = 5`.  `none` models a panic (`content[0]`, `content[4]`,
or a bad slice in `write_osc`). -/
def oscStep (content : List Line) : Option OscResult :=
  match content[(0 : Nat)]? with
  | none => none
  | some datetime =>
    if reDtIsMatch datetime then
      match content[(4 : Nat)]? with
      | none => none
      | some line4 =>
        if listContains line4 markerChars then some OscResult.skip
        else
          match write_osc (content.set 4 ('\t' :: (markerChars ++ line4))) 5 datetime with
          | none => none
          | some out => some (OscResult.wrote out)
    else some OscResult.skip

/-- The configuration mapping, as the pipeline sees it: whether an
(upper-cased) extension key is present (`!cfg[ext].is_badvalue()`), and the
optional `min_n_lines` integer found under any key
(`cfg[ext]["min_n_lines"].as_i64()`). -/
structure Cfg where
  hasExt : Line → Bool
  minNLines : Line → Option Int

/-- `ext.to_ascii_uppercase()` on a single character. -/
def asciiUpper (ch : Char) : Char :=
  if 'a' ≤ ch ∧ ch ≤ 'z' then Char.ofNat (ch.toNat - 32) else ch

/-- `to_ascii_uppercase` on a string. -/
def lineUpper (s : Line) : Line := s.map asciiUpper

/-- Result of check #1 (src/main.rs:152-192): delete the file (no or empty
extension), skip it (`continue`), or proceed with the `file_ext` value the
rest of the loop body sees. -/
inductive ExtResult
  | deleteFile
  | skip
  | proceed (file_ext : Line)
deriving DecidableEq

/-- Check #1 (src/main.rs:152-192).  Note the faithful quirk: for an
extension missing from the configuration the `continue` sits inside
`if args.verbose`, so without verbose the loop falls through with
`file_ext` still the empty string. -/
def extCheck (verbose : Bool) (cfg : Cfg) (ext? : Option Line) : ExtResult :=
  match ext? with
  | none => ExtResult.deleteFile
  | some ext =>
    let up := lineUpper ext
    if up = [] then ExtResult.deleteFile
    else if cfg.hasExt up then ExtResult.proceed up
    else if verbose then ExtResult.skip
    else ExtResult.proceed []

/-- Minimum line count for a resolved `file_ext` (src/main.rs:212-221):
`cfg[file_ext]["min_n_lines"].as_i64()`, cast `as usize` (wrapping), with
default 2 when absent. -/
def resolveMin (cfg : Cfg) (file_ext : Line) : Nat :=
  match cfg.minNLines file_ext with
  | some n => (n.emod ((2 : Int) ^ 64)).toNat
  | none => 2

/-- What happens to one file, as observable on disk. -/
inductive FileAction
  | deletedNoExt
  | skipped
  | deleted
  | wroteOsc (lines : List Line)
  | wrote (lines : List Line)
  | untouched
deriving DecidableEq

/-- One iteration of the per-file loop (src/main.rs:150-319): extension
check, line-integrity pipeline, then the OSC special case or the plain
rewrite.  `none` models a panic. -/
def processFile (verbose : Bool) (cfg : Cfg) (ext? : Option Line)
    (content : List Line) : Option FileAction :=
  match extCheck verbose cfg ext? with
  | ExtResult.deleteFile => some FileAction.deletedNoExt
  | ExtResult.skip => some FileAction.skipped
  | ExtResult.proceed fe =>
    let file_ext := lineUpper fe
    match pipeline (resolveMin cfg file_ext) content with
    | none => none
    | some Outcome.delete => some FileAction.deleted
    | some (Outcome.keep write cnt) =>
      if lineUpper file_ext = oscChars then
        match oscStep cnt with
        | none => none
        | some OscResult.skip => some FileAction.untouched
        | some (OscResult.wrote out) => some (FileAction.wroteOsc out)
      else if write then some (FileAction.wrote cnt)
      else some FileAction.untouched

/-- The on-disk content resulting from a file action, given the pre-run
content (`none` = the file no longer exists). -/
def diskAfter (original : List Line) : FileAction → Option (List Line)
  | FileAction.deletedNoExt => none
  | FileAction.deleted => none
  | FileAction.skipped => some original
  | FileAction.untouched => some original
  | FileAction.wrote l => some l
  | FileAction.wroteOsc l => some l

/-! ## Concrete data used by the witnesses and counterexamples -/

/-- The example datetime first line `"21.06.24 14:03:55.12"`. -/
def dtLine : Line := ['2','1','.','0','6','.','2','4',' ','1','4',':','0','3',':','5','5','.','1','2']

/-- A two-character data line `"xx"`. -/
def xxLine : Line := ['x','x']

/-- A five-line OSC file whose first line matches the datetime pattern:
it passes every pipeline check, yet `write_osc` slices `[5..4]`. -/
def c7ex5 : List Line := [dtLine, xxLine, xxLine, xxLine, xxLine]

/-- The example header line `"Time\tValue"`. -/
def tvLine : Line := ['T','i','m','e','\t','V','a','l','u','e']

/-- Data line `"1\t2"`. -/
def d1Line : Line := ['1','\t','2']

/-- Data line `"3\t4"`. -/
def d2Line : Line := ['3','\t','4']

/-- A seven-line OSC file in the shape of the spec's rewrite example. -/
def c6content : List Line :=
  [dtLine, ['h','1'], ['h','2'], ['h','3'], tvLine, d1Line, d2Line]

/-- What the rewrite actually persists for `c6content`: six lines, the
marker concatenated to the header without a separating tab, and the final
data line dropped. -/
def c6out : List Line :=
  [dtLine, ['h','1'], ['h','2'], ['h','3'],
   '\t' :: (markerChars ++ tvLine), '\t' :: (dtLine ++ d1Line)]

/-- The header the spec example expects: `"\tDateTime\tTime\tValue"`. -/
def c6claimedHeader : Line :=
  ['\t','D','a','t','e','T','i','m','e','\t','T','i','m','e','\t','V','a','l','u','e']

/-- A configuration with exactly one known extension, `OSC`, with
`min_n_lines = 2`. -/
def cfgEx : Cfg where
  hasExt := fun e => decide (e = oscChars)
  minNLines := fun e => if e = oscChars then some 2 else none

/-- A lower-case extension `"xyz"` not present in `cfgEx`. -/
def xyzChars : Line := ['x','y','z']

/-- The lower-case extension `"osc"`. -/
def oscLowerChars : Line := ['o','s','c']

/-- Line `"a\tbb"` (two fields, last field two characters). -/
def laLine : Line := ['a','\t','b','b']

/-- Line `"1\t22"` (two fields, last field two characters). -/
def lbLine : Line := ['1','\t','2','2']

/-- Line `"2\t3"` (two fields, last field one character). -/
def lcLine : Line := ['2','\t','3']

/-- Line `"4\t5\t6"` (three fields). -/
def ldLine : Line := ['4','\t','5','\t','6']

/-- An input where only the last line's field count differs from the
header's, but where check #4.2 then also fires. -/
def c5ex : List Line := [laLine, lbLine, lcLine, ldLine]

/-- An OSC file with a trailing blank line and a non-matching first line. -/
def c3ex : List Line := [['a','\t','b'], ['1','\t','2'], []]

/-- The spec's §8 pipeline example `["a\tb\tc", "1\t2\t3", "4\t5", ""]`. -/
def c10ex : List Line :=
  [['a','\t','b','\t','c'], ['1','\t','2','\t','3'], ['4','\t','5'], []]

/-- Claim C7 as stated: for every configured `min_lines` below 6 there is
a file (of feasible `Vec` length) that the pipeline keeps but on which the
OSC branch then panics. -/
def c7ClaimStated : Prop :=
  ∀ m, m < 6 → ∃ content : List Line, content.length < 2 ^ 63 ∧
    ∃ w cnt, pipeline m content = some (Outcome.keep w cnt) ∧ oscStep cnt = none
theorem usub_eq {a b : Nat} (hba : b ≤ a) (ha : a < USIZE) : usub a b = a - b := by
  unfold usub USIZE at *
  omega

theorem splitOnChar_ne_nil (d : Char) (s : Line) : splitOnChar d s ≠ [] := by
  cases s with
  | nil => simp [splitOnChar]
  | cons c cs =>
    unfold splitOnChar
    cases splitOnChar d cs with
    | nil => simp
    | cons f fs => by_cases h : c = d <;> simp [h]

theorem n_chars_last_field_isSome (s : Line) (d : Char) :
    (n_chars_last_field s d).isSome := by
  unfold n_chars_last_field
  rcases h : (splitOnChar d (rustTrim s)).getLast? with _ | n
  · exact absurd (List.getLast?_eq_none_iff.mp h) (splitOnChar_ne_nil d (rustTrim s))
  · simp

theorem trimTrailing_length_le (ls : List Line) :
    (trimTrailing ls).length ≤ ls.length := by
  unfold trimTrailing
  have h := (List.dropWhile_sublist (l := ls.reverse)
    (p := fun l => l.isEmpty)).length_le
  simpa using h

/-! ## Claim theorems -/

/-- **C10**: on input `["a\tb\tc", "1\t2\t3", "4\t5", ""]` with
`min_lines = 2`, the pipeline trims the trailing blank, the header and
first data row field counts match (3 = 3), the last line (2 fields) is
removed, and the outcome is Rewritten with exactly
`["a\tb\tc", "1\t2\t3"]`. -/
theorem c10_example :
    pipeline 2 c10ex =
      some (Outcome.keep true [['a','\t','b','\t','c'], ['1','\t','2','\t','3']]) := by
  decide

/-- **C2** (code bug): a file whose extension `xyz` is not in the
configuration is *not* left untouched when verbose is off: the unknown
extension only `continue`s inside `if args.verbose`, so with verbose off
the file falls into the pipeline (with empty `file_ext`, default
`min_n_lines = 2`) and a one-line file is deleted; with verbose on the
same file is skipped. -/
theorem c2_unknown_ext_deleted_when_not_verbose :
    processFile false cfgEx (some xyzChars) [['a','b']] = some FileAction.deleted ∧
    processFile true cfgEx (some xyzChars) [['a','b']] = some FileAction.skipped := by
  decide

/-- **C4** (code bug): two runs differing only in the verbose flag do not
produce identical outcomes: on a one-line file with unknown extension
`xyz`, verbose on skips the file while verbose off deletes it. -/
theorem c4_verbose_changes_outcome :
    processFile true cfgEx (some xyzChars) [['a','b']] ≠
      processFile false cfgEx (some xyzChars) [['a','b']] := by
  decide

/-- **C3 counterexample**: for the OSC file `c3ex` (first line does not
match the datetime pattern) the pipeline trims the trailing blank and
returns Rewritten content, yet the per-file driver performs no write at
all (`untouched`): the on-disk file keeps its pre-run three lines instead
of the pipeline's two. -/
theorem c3_counterexample :
    processFile false cfgEx (some oscLowerChars) c3ex = some FileAction.untouched ∧
    pipeline 2 c3ex = some (Outcome.keep true [['a','\t','b'], ['1','\t','2']]) ∧
    ([['a','\t','b'], ['1','\t','2']] : List Line) ≠ c3ex := by
  decide

/-- **C1 counterexample**: the OSC rewrite on the seven-line `c6content`
persists only six lines — the slice `content[5..len-1]` excludes the last
data line, so the number of persisted lines does not equal the length of
the content buffer. -/
theorem c1_counterexample :
    oscStep c6content = some (OscResult.wrote c6out) ∧ c6out.length ≠ c6content.length := by
  decide

/-- **C6 counterexample**: with first line `"21.06.24 14:03:55.12"` and
header `"Time\tValue"` at index 4, the rewritten header is
`"\tDateTimeTime\tValue"` — the marker is concatenated directly, without
its own tab delimiter — not `"\tDateTime\tTime\tValue"` as claimed. -/
theorem c6_counterexample :
    oscStep c6content = some (OscResult.wrote c6out) ∧
    c6out[(4 : Nat)]? = some ('\t' :: (markerChars ++ tvLine)) ∧
    ('\t' :: (markerChars ++ tvLine)) ≠ c6claimedHeader := by
  decide

/-- **C6 amended**: on the spec's example the rewrite produces header line
4 = `"\tDateTime" ++ "Time\tValue"` (no separating tab) and each data line
except the final one — which the slice `[5..len-1]` drops — is written
with `"\t21.06.24 14:03:55.12"` prepended. -/
theorem c6_amended : oscStep c6content = some (OscResult.wrote c6out) := by
  decide

/-- **C5 counterexample**: `c5ex` satisfies every hypothesis of the claim
(no trailing blanks, length ≥ `min_lines` = 2, header and first data row
field counts match, every line but the last has the header's field count,
the last differs) — yet the pipeline removes *two* lines, not exactly one:
check #4.1 pops the last line and check #4.2 then pops another. -/
theorem c5_counterexample :
    (trimTrailing c5ex = c5ex ∧ 2 ≤ c5ex.length ∧
      n_data_fields (c5ex.getD 1 []) '\t' = n_data_fields (c5ex.getD 0 []) '\t' ∧
      (∀ i, i < c5ex.length - 1 →
        n_data_fields (c5ex.getD i []) '\t' = n_data_fields (c5ex.getD 0 []) '\t') ∧
      n_data_fields (c5ex.getD (c5ex.length - 1) []) '\t' ≠
        n_data_fields (c5ex.getD 0 []) '\t') ∧
    pipeline 2 c5ex ≠ some (Outcome.keep true c5ex.dropLast) ∧
    pipeline 2 c5ex = some (Outcome.keep true [laLine, lbLine]) := by
  decide

/-- **C9**: Delete is terminal — whenever the extension check lets a file
proceed and the line-integrity pipeline decides `delete`, the per-file
driver removes the file and performs no write of any kind. -/
theorem c9_delete_terminal (v : Bool) (cfg : Cfg) (ext? : Option Line)
    (content : List Line) (fe : Line)
    (hx : extCheck v cfg ext? = ExtResult.proceed fe)
    (hdel : pipeline (resolveMin cfg (lineUpper fe)) content = some Outcome.delete) :
    processFile v cfg ext? content = some FileAction.deleted := by
  unfold processFile
  rw [hx]
  simp only [hdel]

/-- Witness for C9 at a concrete input: a one-line `osc` file under
`cfgEx` (`min_n_lines = 2`) is deleted. -/
theorem c9_delete_terminal_witness :
    processFile false cfgEx (some oscLowerChars) [['a','b']] = some FileAction.deleted :=
  c9_delete_terminal false cfgEx (some oscLowerChars) [['a','b']] oscChars
    (by decide) (by decide)

/-- **C3 amended**: for an OSC file on which the rewrite is not triggered
(`oscStep` skips), the driver writes nothing at all: the action is
`untouched` and the on-disk content stays the pre-run content, even when
the pipeline produced trimmed content (`write = true`).  Tail lines
removed by the pipeline are therefore *not* persisted for such files,
unlike for non-OSC files. -/
theorem c3_osc_skip_writes_nothing (v : Bool) (cfg : Cfg) (ext? : Option Line)
    (content : List Line) (fe : Line) (w : Bool) (cnt : List Line)
    (hx : extCheck v cfg ext? = ExtResult.proceed fe)
    (hosc : lineUpper (lineUpper fe) = oscChars)
    (hp : pipeline (resolveMin cfg (lineUpper fe)) content = some (Outcome.keep w cnt))
    (hskip : oscStep cnt = some OscResult.skip) :
    processFile v cfg ext? content = some FileAction.untouched ∧
    diskAfter content FileAction.untouched = some content := by
  refine ⟨?_, rfl⟩
  unfold processFile
  rw [hx]
  simp only [hp, hosc, if_pos, hskip]

/-- Witness for the amended C3 at the concrete `c3ex`. -/
theorem c3_osc_skip_writes_nothing_witness :
    processFile false cfgEx (some oscLowerChars) c3ex = some FileAction.untouched ∧
    diskAfter c3ex FileAction.untouched = some c3ex :=
  c3_osc_skip_writes_nothing false cfgEx (some oscLowerChars) c3ex oscChars true
    [['a','\t','b'], ['1','\t','2']] (by decide) (by decide) (by decide) (by decide)

/-! ### Helper lemmas -/

theorem lt_USIZE_of_lt {n : Nat} (h : n < 2 ^ 63) : n < USIZE := by
  have h2 : (2 : Nat) ^ 63 = 9223372036854775808 := by norm_num
  rw [h2] at h
  unfold USIZE
  omega

theorem getElem?_some_lt {α : Type} {l : List α} {i : Nat} {x : α}
    (h : l[i]? = some x) : i < l.length := by
  by_contra hc
  rw [List.getElem?_eq_none (by omega)] at h
  cases h

theorem listContains_cons_append (ch : Char) (needle rest : Line) :
    listContains (ch :: (needle ++ rest)) needle = true := by
  unfold listContains
  rw [List.any_eq_true]
  have hpre : needle <+: needle ++ rest := ⟨rest, rfl⟩
  exact ⟨1, by simp [List.mem_range], by simp [List.isPrefixOf_iff_prefix, hpre]⟩

/-- **C1 amended**: when the OSC rewrite is triggered on content of
feasible length, the persisted lines are: the five header lines (with the
marker line substituted at index 4), then every data line from index 5 up
to — but *excluding* — the final line, each prefixed with a tab and the
extracted datetime string.  The number of persisted lines is the length of
the content buffer minus one, not the length itself. -/
theorem c1_osc_write_drops_last (content : List Line) (dt l4 : Line)
    (h0 : content[(0 : Nat)]? = some dt) (hre : reDtIsMatch dt = true)
    (h4 : content[(4 : Nat)]? = some l4) (hmk : listContains l4 markerChars = false)
    (hlen6 : 6 ≤ content.length) (hlenU : content.length < 2 ^ 63) :
    ∃ out, oscStep content = some (OscResult.wrote out) ∧
      out.length = content.length - 1 ∧
      out.take 5 = (content.set 4 ('\t' :: (markerChars ++ l4))).take 5 ∧
      out.drop 5 = ((content.drop 5).take (content.length - 1 - 5)).map
        (fun l => '\t' :: (dt ++ l)) := by
  have hUS : content.length < USIZE := lt_USIZE_of_lt hlenU
  set newL4 : Line := '\t' :: (markerChars ++ l4) with hnew
  set cs := content.set 4 newL4 with hcs
  have hcslen : cs.length = content.length := List.length_set ..
  have hu1 : usub cs.length 1 = content.length - 1 := by
    rw [hcslen]; exact usub_eq (by omega) hUS
  have hA : rslice cs 0 5 = cs.take 5 := by simp [rslice]
  have hAlen : (rslice cs 0 5).length = 5 := by
    simp [rslice, hcslen]; omega
  have hw : write_osc cs 5 dt =
      some (rslice cs 0 5 ++ (rslice cs 5 (content.length - 1)).map
        (fun l => '\t' :: (dt ++ l))) := by
    unfold write_osc
    rw [hu1, hcslen, if_pos (by omega)]
  have hstep : oscStep content =
      some (OscResult.wrote (rslice cs 0 5 ++ (rslice cs 5 (content.length - 1)).map
        (fun l => '\t' :: (dt ++ l)))) := by
    unfold oscStep
    rw [h0]
    simp only [hre, h4, hmk, ite_true, ite_false, Bool.false_eq_true, if_true, if_false]
    rw [← hnew, ← hcs]
    simp only [hw]
  refine ⟨_, hstep, ?_, ?_, ?_⟩
  · simp [rslice, hcslen]
    omega
  · rw [List.take_left' hAlen, hA]
  · rw [List.drop_left' hAlen]
    have hdrop : cs.drop 5 = content.drop 5 := by
      rw [hcs, List.drop_set]
      simp
    simp [rslice, hdrop]

/-- Witness for the amended C1 at the concrete seven-line `c6content`. -/
theorem c1_osc_write_drops_last_witness :
    ∃ out, oscStep c6content = some (OscResult.wrote out) ∧
      out.length = c6content.length - 1 ∧
      out.take 5 = (c6content.set 4 ('\t' :: (markerChars ++ tvLine))).take 5 ∧
      out.drop 5 = ((c6content.drop 5).take (c6content.length - 1 - 5)).map
        (fun l => '\t' :: (dtLine ++ l)) :=
  c1_osc_write_drops_last c6content dtLine tvLine (by decide) (by decide)
    (by decide) (by decide) (by decide) (by decide)

/-- **C8**: the OSC rewrite is idempotent.  First conjunct: if line 4
already contains the marker token, the step performs no write (skip).
Second conjunct: content actually produced by a rewrite contains the
marker in line 4, and running the step again on it is a no-op (skip). -/
theorem c8_idempotent :
    (∀ content l4, content[(4 : Nat)]? = some l4 →
      listContains l4 markerChars = true → oscStep content = some OscResult.skip) ∧
    (∀ content out, content.length < 2 ^ 63 →
      oscStep content = some (OscResult.wrote out) →
      (∃ l4, out[(4 : Nat)]? = some l4 ∧ listContains l4 markerChars = true) ∧
      oscStep out = some OscResult.skip) := by
  constructor
  · intro content l4 h4 hmk
    have h4lt : 4 < content.length := getElem?_some_lt h4
    have h0 : content[(0 : Nat)]? = some (content.get ⟨0, by omega⟩) := by
      simp [List.getElem?_eq_getElem (by omega : 0 < content.length)]
    by_cases hre : reDtIsMatch (content.get ⟨0, by omega⟩)
    · unfold oscStep
      rw [h0]
      simp only [hre, h4, hmk, ite_true, if_true]
    · unfold oscStep
      rw [h0]
      simp only [hre, Bool.false_eq_true, ite_false, if_false]
  · intro content out hlen hw
    have hUS : content.length < USIZE := lt_USIZE_of_lt hlen
    rcases h0 : content[(0 : Nat)]? with _ | dt
    · rw [oscStep, h0] at hw; cases hw
    · have h0lt : 0 < content.length := getElem?_some_lt h0
      rw [oscStep, h0] at hw
      simp only at hw
      by_cases hre : reDtIsMatch dt
      · rw [if_pos hre] at hw
        rcases h4 : content[(4 : Nat)]? with _ | l4
        · rw [h4] at hw; cases hw
        · rw [h4] at hw
          simp only at hw
          by_cases hmk : listContains l4 markerChars
          · rw [if_pos hmk] at hw; cases hw
          · rw [if_neg hmk] at hw
            rcases hwo : write_osc (content.set 4 ('\t' :: (markerChars ++ l4))) 5 dt
              with _ | o
            · rw [hwo] at hw; cases hw
            · rw [hwo] at hw
              simp only [Option.some.injEq, OscResult.wrote.injEq] at hw
              subst hw
              -- unpack write_osc
              rw [write_osc] at hwo
              rw [List.length_set] at hwo
              rw [usub_eq (by omega) hUS] at hwo
              by_cases hcond : 5 ≤ content.length ∧ 5 ≤ content.length - 1 ∧
                  content.length - 1 ≤ content.length
              · rw [if_pos hcond] at hwo
                have hlen6 : 6 ≤ content.length := by omega
                have hAlen : (rslice (content.set 4 ('\t' :: (markerChars ++ l4))) 0 5).length = 5 := by
                  simp [rslice]
                  omega
                injection hwo with hwo
                subst hwo
                have hout4 : (rslice (content.set 4 ('\t' :: (markerChars ++ l4))) 0 5 ++
                    (rslice (content.set 4 ('\t' :: (markerChars ++ l4))) 5 (content.length - 1)).map
                      (fun l => '\t' :: (dt ++ l)))[(4 : Nat)]? =
                    some ('\t' :: (markerChars ++ l4)) := by
                  rw [List.getElem?_append_left (by omega)]
                  simp only [rslice, Nat.sub_zero, List.drop_zero]
                  rw [List.getElem?_take_of_lt (by omega)]
                  rw [List.getElem?_set_self (by omega)]
                have hout0 : (rslice (content.set 4 ('\t' :: (markerChars ++ l4))) 0 5 ++
                    (rslice (content.set 4 ('\t' :: (markerChars ++ l4))) 5 (content.length - 1)).map
                      (fun l => '\t' :: (dt ++ l)))[(0 : Nat)]? = some dt := by
                  rw [List.getElem?_append_left (by omega)]
                  simp only [rslice, Nat.sub_zero, List.drop_zero]
                  rw [List.getElem?_take_of_lt (by omega)]
                  rw [List.getElem?_set_ne (by omega)]
                  exact h0
                have hcontains : listContains ('\t' :: (markerChars ++ l4)) markerChars = true :=
                  listContains_cons_append '\t' markerChars l4
                refine ⟨⟨_, hout4, hcontains⟩, ?_⟩
                unfold oscStep
                rw [hout0]
                simp only [hre, hout4, hcontains, ite_true, if_true]
              · rw [if_neg hcond] at hwo; cases hwo
      · rw [if_neg hre] at hw; cases hw

/-- Witness for C8: the rewrite output `c6out` (marker in line 4) makes the
step skip, and the concrete rewrite `c6content ↦ c6out` round-trips to a
skip. -/
theorem c8_idempotent_witness :
    oscStep c6out = some OscResult.skip ∧
    ((∃ l4, c6out[(4 : Nat)]? = some l4 ∧ listContains l4 markerChars = true) ∧
      oscStep c6out = some OscResult.skip) :=
  ⟨c8_idempotent.1 c6out ('\t' :: (markerChars ++ tvLine)) (by decide) (by decide),
   c8_idempotent.2 c6content c6out (by decide) (by decide)⟩

/-- **C7 counterexample**: the claim quantifies over *every* `min_lines`
below 6, but for `min_lines = 1` no file passes the pipeline at all —
`min_len - 2` wraps around to `usize::MAX - 1` and the header index access
panics on any file long enough to pass the length pre-check — so no file
can both pass the checks and make the OSC branch panic. -/
theorem c7_counterexample : ¬ c7ClaimStated := by
  intro h
  obtain ⟨content, hlen, w, cnt, hp, _⟩ := h 1 (by omega)
  have hUS : content.length < USIZE := lt_USIZE_of_lt hlen
  have htle : (trimTrailing content).length ≤ content.length :=
    trimTrailing_length_le content
  revert hp
  unfold pipeline
  by_cases hlt : (trimTrailing content).length < 1
  · simp [hlt]
  · have hidx : usub 1 2 = USIZE - 1 := by unfold usub USIZE; omega
    have hnone : (trimTrailing content)[usub 1 2]? = none := by
      apply List.getElem?_eq_none
      rw [hidx]
      unfold USIZE at hUS ⊢
      omega
    simp [hlt, hnone]

/-- **C7 amended**: the OSC branch is panic-free on kept content of at
least 6 lines, and for every configured `min_lines` with
`2 ≤ min_lines < 6` there is a file (e.g. of exactly 5 lines) that passes
all pipeline checks yet makes the OSC branch's slice access panic. -/
theorem c7_osc_panic_below_six :
    (∀ content : List Line, 6 ≤ content.length → content.length < 2 ^ 63 →
      oscStep content ≠ none) ∧
    (∀ m, 2 ≤ m → m < 6 → ∃ content : List Line, content.length < 2 ^ 63 ∧
      ∃ cnt, pipeline m content = some (Outcome.keep false cnt) ∧
        oscStep cnt = none) := by
  constructor
  · intro content h6 hlen
    have hUS : content.length < USIZE := lt_USIZE_of_lt hlen
    have h0 : content[(0 : Nat)]? = some (content.get ⟨0, by omega⟩) := by
      simp [List.getElem?_eq_getElem (by omega : 0 < content.length)]
    unfold oscStep
    rw [h0]
    simp only
    by_cases hre : reDtIsMatch (content.get ⟨0, by omega⟩)
    · rw [if_pos hre]
      have h4 : content[(4 : Nat)]? = some (content.get ⟨4, by omega⟩) := by
        simp [List.getElem?_eq_getElem (by omega : 4 < content.length)]
      rw [h4]
      simp only
      by_cases hmk : listContains (content.get ⟨4, by omega⟩) markerChars
      · rw [if_pos hmk]; simp
      · rw [if_neg hmk]
        have hwo : write_osc
            (content.set 4 ('\t' :: (markerChars ++ content.get ⟨4, by omega⟩))) 5
            (content.get ⟨0, by omega⟩) ≠ none := by
          unfold write_osc
          rw [List.length_set, usub_eq (by omega) hUS, if_pos (by omega)]
          simp
        rcases hwo2 : write_osc
            (content.set 4 ('\t' :: (markerChars ++ content.get ⟨4, by omega⟩))) 5
            (content.get ⟨0, by omega⟩) with _ | o
        · exact absurd hwo2 hwo
        · simp
    · rw [if_neg hre]; simp
  · intro m h2 h6
    interval_cases m <;>
      exact ⟨c7ex5, by decide, c7ex5, by decide, by decide⟩

/-- Witness for the amended C7: the 7-line `c6content` cannot panic, and at
`min_lines = 2` a 5-line file passes the checks yet panics in the OSC
branch. -/
theorem c7_osc_panic_below_six_witness :
    oscStep c6content ≠ none ∧
    (∃ content : List Line, content.length < 2 ^ 63 ∧
      ∃ cnt, pipeline 2 content = some (Outcome.keep false cnt) ∧
        oscStep cnt = none) :=
  ⟨c7_osc_panic_below_six.1 c6content (by decide) (by decide),
   c7_osc_panic_below_six.2 2 (by decide) (by decide)⟩

/-- **C5 amended**: for inputs with no trailing blanks, length ≥
`min_lines`, matching header/first-data field counts, and *only* the last
line's field count differing from the header's, check #4.1 removes exactly
one line — but check #4.2 may then remove one more (its character-count
heuristic is independent of field counts).  The outcome is always
Rewritten (`keep true`) with one or two lines removed; Delete is
impossible here, because a last-line mismatch forces the length to exceed
`min_lines`. -/
theorem c5_last_line_mismatch_keeps (m : Nat) (content : List Line)
    (header data1 lastL : Line)
    (hm2 : 2 ≤ m) (hmU : m < USIZE)
    (hlenU : content.length < 2 ^ 63)
    (htrim : trimTrailing content = content)
    (hmin : m ≤ content.length)
    (hh : content[m - 2]? = some header)
    (hd : content[m - 1]? = some data1)
    (hl : content[content.length - 1]? = some lastL)
    (h3 : n_data_fields data1 '\t' = n_data_fields header '\t')
    (hall : ∀ i, i < content.length - 1 →
      n_data_fields (content.getD i []) '\t' = n_data_fields header '\t')
    (hlast : n_data_fields lastL '\t' ≠ n_data_fields header '\t') :
    pipeline m content = some (Outcome.keep true content.dropLast) ∨
    pipeline m content = some (Outcome.keep true content.dropLast.dropLast) := by
  have hUS : content.length < USIZE := lt_USIZE_of_lt hlenU
  have hlm : m < content.length := by
    rcases Nat.lt_or_ge m content.length with h | h
    · exact h
    · exfalso
      have he : content.length - 1 = m - 1 := by omega
      rw [he, hd] at hl
      injection hl with hl
      exact hlast (hl ▸ h3)
  have hu2 : usub m 2 = m - 2 := usub_eq hm2 hmU
  have hu1 : usub m 1 = m - 1 := usub_eq (by omega) hmU
  have huL : usub content.length 1 = content.length - 1 := usub_eq (by omega) hUS
  unfold pipeline
  simp only [htrim, hu2, hu1, huL, hh, hd, hl]
  rw [if_neg (by omega : ¬ content.length < m)]
  rw [if_neg (by simp [h3])]
  rw [if_pos hlast]
  have hdl : content.dropLast.length = content.length - 1 := List.length_dropLast content
  have hdl2 : content.dropLast.dropLast.length = content.length - 2 := by
    simp [List.length_dropLast]
    omega
  unfold check42
  by_cases h42 : m < content.dropLast.length
  · rw [if_pos h42]
    have hL1 : usub content.dropLast.length 1 = content.length - 2 := by
      rw [hdl, usub_eq (by omega) (by omega)]
      omega
    have hL2 : usub content.dropLast.length 2 = content.length - 3 := by
      rw [hdl, usub_eq (by omega) (by omega)]
      omega
    rw [hL1, hL2]
    rcases e1 : content.dropLast[content.length - 2]? with _ | lastD
    · exact absurd (List.getElem?_eq_none_iff.mp e1) (by omega)
    rcases e2 : content.dropLast[content.length - 3]? with _ | prevD
    · exact absurd (List.getElem?_eq_none_iff.mp e2) (by omega)
    simp only
    obtain ⟨a1, ha1⟩ := Option.isSome_iff_exists.mp (n_chars_last_field_isSome lastD '\t')
    obtain ⟨a2, ha2⟩ := Option.isSome_iff_exists.mp (n_chars_last_field_isSome prevD '\t')
    rw [ha1, ha2]
    simp only
    by_cases hcmp : a1 < a2
    · rw [if_pos hcmp]
      unfold check5
      rw [if_neg (by omega : ¬ content.dropLast.dropLast.length < m)]
      right
      rfl
    · rw [if_neg hcmp]
      unfold check5
      rw [if_neg (by omega : ¬ content.dropLast.length < m)]
      left
      rfl
  · rw [if_neg h42]
    unfold check5
    rw [if_neg (by omega : ¬ content.dropLast.length < m)]
    left
    rfl

/-- Witness for the amended C5 at `c5ex` with `min_lines = 2` (here check
#4.2 fires too, so two lines are removed). -/
theorem c5_last_line_mismatch_keeps_witness :
    pipeline 2 c5ex = some (Outcome.keep true c5ex.dropLast) ∨
    pipeline 2 c5ex = some (Outcome.keep true c5ex.dropLast.dropLast) :=
  c5_last_line_mismatch_keeps 2 c5ex laLine lbLine ldLine
    (by decide) (by decide) (by decide) (by decide) (by decide)
    (by decide) (by decide) (by decide) (by decide)
    (by decide) (by decide)
